import Mathlib

/-!
Verification of the scrapipy repository (src/scrape.py, src/parse.py)
against its natural-language specification.

Python strings that the claims measure character by character (the chunker
and the extractor) are modelled as `List Char`; strings the scraper merely
passes around or compares are modelled as `String`.  External collaborators
(the selenium driver, BeautifulSoup, the requests library, the hosted model)
are passed in as explicit parameters, one outcome per call, so that the
control flow of the embedded functions is exactly the control flow of the
Python source.
-/

namespace Scrapipy

/-- Model of Python `range(lo, hi)` (step 1): the list `[lo, lo+1, ..., hi-1]`. -/
def pyRange (lo hi : Nat) : List Nat :=
  (List.range (hi - lo)).map (fun j => lo + j)

/-- Model of Python `range(start, stop, step)` for a positive `step`: the
arithmetic progression starting at `start`, strictly below `stop`. -/
def pyRangeStep (start stop step : Nat) : List Nat :=
  (List.range ((stop - start + step - 1) / step)).map (fun j => start + j * step)

/-- Embedding of `split_dom_content` (src/scrape.py, lines 166-171):
`[dom_content[i:i + max_length] for i in range(0, len(dom_content), max_length)]
if dom_content else []`, with the Python string modelled as a list of
characters and the slice `s[i:i+C]` as `(s.drop i).take C`.  The source
default for `max_length` is 6000; the claims quantify over it. -/
def split_dom_content (dom_content : List Char) (max_length : Nat) : List (List Char) :=
  if dom_content = [] then []
  else (pyRangeStep 0 dom_content.length max_length).map
    (fun i => (dom_content.drop i).take max_length)

lemma div_sub_add_eq (L C : Nat) (hC : 0 < C) (hL : 1 ≤ L) :
    (L - C + C - 1) / C = (L - 1) / C := by
  rcases Nat.lt_or_ge L C with hlt | hge
  · have h0 : L - C = 0 := by omega
    rw [h0]
    rw [Nat.div_eq_of_lt (by omega), Nat.div_eq_of_lt (by omega)]
  · rcases Nat.eq_or_lt_of_le hge with heq | hlt2
    · congr 1
      omega
    · have e1 : L - C + C - 1 = (L - C - 1) + C := by omega
      have e2 : L - 1 = (L - C - 1) + C := by omega
      rw [e1, e2]

lemma join_chunks (C : Nat) (hC : 0 < C) (k : Nat) :
    ∀ s : List Char, (s.length + C - 1) / C = k →
      (((List.range k).map (fun j => (s.drop (j * C)).take C)).flatten = s) := by
  induction k with
  | zero =>
      intro s h
      have hlt : s.length + C - 1 < C := (Nat.div_eq_zero_iff hC).mp h
      have hlen : s.length = 0 := by omega
      have : s = [] := List.length_eq_zero.mp hlen
      simp [this]
  | succ k ih =>
      intro s h
      have hL : 1 ≤ s.length := by
        by_contra hne
        have h0 : s.length = 0 := by omega
        rw [h0] at h
        rw [Nat.div_eq_of_lt (by omega)] at h
        omega
      have hk : ((s.drop C).length + C - 1) / C = k := by
        rw [List.length_drop]
        have h2 : s.length + C - 1 = (s.length - 1) + C := by omega
        rw [h2, Nat.add_div_right _ hC] at h
        rw [div_sub_add_eq s.length C hC hL]
        omega
      rw [List.range_succ_eq_map, List.map_cons, List.map_map, List.flatten_cons]
      have hmap :
          (List.range k).map ((fun j => (s.drop (j * C)).take C) ∘ Nat.succ)
            = (List.range k).map (fun j => ((s.drop C).drop (j * C)).take C) := by
        apply List.map_congr_left
        intro j _
        simp only [Function.comp]
        rw [List.drop_drop]
        congr 2
        rw [Nat.succ_mul]
        omega
      rw [hmap, ih (s.drop C) hk]
      simp

/-- C1: for every input text of length `L` and every chunk size `C > 0`,
`split_dom_content` returns exactly `⌈L/C⌉` chunks, concatenating the chunks
in order reconstructs the input text, and the empty input yields `[]`. -/
theorem split_dom_content_spec (s : List Char) (C : Nat) (hC : 0 < C) :
    (split_dom_content s C).length = (s.length + C - 1) / C ∧
    (split_dom_content s C).flatten = s ∧
    split_dom_content [] C = [] := by
  refine ⟨?_, ?_, by simp [split_dom_content]⟩
  · unfold split_dom_content pyRangeStep
    by_cases hs : s = []
    · subst hs
      simp [Nat.div_eq_of_lt (by omega : C - 1 < C)]
    · simp [hs]
  · unfold split_dom_content pyRangeStep
    by_cases hs : s = []
    · simp [hs]
    · have hmap :
          (List.range ((s.length - 0 + C - 1) / C)).map
              ((fun i => (s.drop i).take C) ∘ (fun j => 0 + j * C))
            = (List.range ((s.length + C - 1) / C)).map
              (fun j => (s.drop (j * C)).take C) := by
        rw [show s.length - 0 = s.length from rfl]
        apply List.map_congr_left
        intro j _
        simp [Function.comp]
      rw [if_neg hs, List.map_map, hmap]
      exact join_chunks C hC _ s rfl

/-- C1 witness: a concrete run of the chunker at `s = "abcde"`, `C = 2`. -/
theorem split_dom_content_spec_witness :
    0 < 2 ∧
    ((split_dom_content ['a', 'b', 'c', 'd', 'e'] 2).length
        = (['a', 'b', 'c', 'd', 'e'].length + 2 - 1) / 2 ∧
      (split_dom_content ['a', 'b', 'c', 'd', 'e'] 2).flatten = ['a', 'b', 'c', 'd', 'e'] ∧
      split_dom_content [] 2 = []) :=
  ⟨by decide, split_dom_content_spec ['a', 'b', 'c', 'd', 'e'] 2 (by decide)⟩

/-- Whether the character list in the first argument starts with the second. -/
def listStartsWith : List Char → List Char → Bool
  | _, [] => true
  | [], _ :: _ => false
  | c :: cs, d :: ds => c == d && listStartsWith cs ds

/-- Whether `pat` occurs as a contiguous substring of `s` (Python `pat in s`). -/
def listHasSub : List Char → List Char → Bool
  | [], pat => pat.isEmpty
  | c :: cs, pat => listStartsWith (c :: cs) pat || listHasSub cs pat

/-- Python substring membership `pat in s` on `String`. -/
def strContainsSub (s pat : String) : Bool :=
  listHasSub s.toList pat.toList

/-- Python exception values manipulated by the embedded `scrape_website`.
`webDriver` and `timeoutExc` stand for selenium's `WebDriverException` and
`TimeoutException`; `generic` for a plain `Exception`; the message is the
`str(e)` text. -/
inductive Exc where
  | valueError (msg : String)
  | generic (msg : String)
  | webDriver (msg : String)
  | timeoutExc (msg : String)
  deriving DecidableEq

def excMsg : Exc → String
  | Exc.valueError m => m
  | Exc.generic m => m
  | Exc.webDriver m => m
  | Exc.timeoutExc m => m

/-- Python `isinstance(e, WebDriverException)`.  In selenium,
`TimeoutException` is a subclass of `WebDriverException`, so a timeout raised
inside the `try` block is also matched by the first `except` clause of
`scrape_website`. -/
def isWebDriverExc : Exc → Bool
  | Exc.webDriver _ => true
  | Exc.timeoutExc _ => true
  | _ => false

/-- Python `isinstance(e, TimeoutException)`. -/
def isTimeoutExc : Exc → Bool
  | Exc.timeoutExc _ => true
  | _ => false

/-- The message of the `ValueError` raised when the `AUTH` variable is unset
or empty (src/scrape.py, line 28). -/
def authMissingMsg : String := "AUTH not found. Add AUTH=username:password to .env"

/-- The message of the `ValueError` raised on an `AUTH` value without a colon
(src/scrape.py, line 32), with the f-string hole filled in. -/
def authFormatMsg (a : String) : String :=
  "Invalid AUTH format: " ++ a ++ ". Expected username:password"

/-- The message of the `ValueError` raised on the permanent auth rejection
(src/scrape.py, lines 110-113). -/
def authFixMsg : String :=
  "❌ Bright Data AUTH is incorrect.\nFix AUTH=username:password in your .env file."

/-- The message of the exception raised when the markup is empty or too short
(src/scrape.py, line 104). -/
def emptyHtmlMsg : String := "Received empty/short HTML content."

/-- The message of the exception raised when retries are exhausted
(src/scrape.py, line 118), with the f-string holes filled in. -/
def failedAfterMsg (maxRetries : Nat) (e : Exc) : String :=
  "Failed after " ++ toString maxRetries ++ " attempts → " ++ excMsg e

/-- Embedding of `get_auth_credentials` (src/scrape.py, lines 23-34).  The
`AUTH` environment variable is passed in explicitly; `none` models an unset
variable, and Python `if not auth` is also true for the empty string. -/
def get_auth_credentials (auth : Option String) : Except Exc String :=
  match auth with
  | none => Except.error (Exc.valueError authMissingMsg)
  | some a =>
      if a = "" then Except.error (Exc.valueError authMissingMsg)
      else if strContainsSub a ":" = false then
        Except.error (Exc.valueError (authFormatMsg a))
      else Except.ok a

/-- Outcome of the externally-visible driver work of one loop attempt of
`scrape_website`: either every call up to `driver.page_source` succeeds and
yields `html`, or some call raises — before `Remote(...)` has assigned
`driver` (so `driver` is still `None` in the `finally` block), or after.
The captcha block (lines 86-96) swallows every exception it raises and so
cannot affect control flow; it is not modelled. -/
inductive Attempt where
  | pageSource (html : String)
  | failBeforeOpen (e : Exc)
  | failAfterOpen (e : Exc)
  deriving DecidableEq

/-- Observable events of a `scrape_website` call, tagged with the attempt
number: the attempt starting, the remote session being opened
(`Remote(...)` succeeding), a `time.sleep`, and `driver.quit()` being
invoked by the `finally` block. -/
inductive Event where
  | attemptStart (k : Nat)
  | sessionOpened (k : Nat)
  | sleep (secs : Nat)
  | quit (k : Nat)
  deriving DecidableEq

/-- Result of a Python call: a returned string, a raised exception, or the
implicit `None` returned when the function body falls off the end. -/
inductive PyResult where
  | ret (html : String)
  | raised (e : Exc)
  | retNone
  deriving DecidableEq

/-- Outcome of the `except` clauses for one caught exception: either the
exception (or a replacement) propagates, or the loop moves on to the next
attempt after the recorded sleep events. -/
inductive HandlerResult where
  | reraise (e : Exc)
  | continueWith (evs : List Event)
  deriving DecidableEq

/-- Embedding of the two `except` clauses of `scrape_website`
(src/scrape.py, lines 106-124), dispatched the way Python matches them: by
`isinstance`, first clause first.  Because `TimeoutException` is a subclass
of `WebDriverException`, the second clause is unreachable.  An exception
matching neither clause is re-raised unchanged. -/
def handleExc (maxRetries attempt : Nat) (e : Exc) : HandlerResult :=
  if isWebDriverExc e then
    if strContainsSub (excMsg e) "Wrong customer name" then
      HandlerResult.reraise (Exc.valueError authFixMsg)
    else if attempt < maxRetries then
      HandlerResult.continueWith [Event.sleep (2 ^ attempt)]
    else
      HandlerResult.reraise (Exc.generic (failedAfterMsg maxRetries e))
  else if isTimeoutExc e then
    if attempt = maxRetries then
      HandlerResult.reraise (Exc.generic "Page load timed out repeatedly")
    else
      HandlerResult.continueWith [Event.sleep 2]
  else
    HandlerResult.reraise e

/-- One iteration of the retry loop of `scrape_website` (src/scrape.py,
lines 68-131): the `try` body, the `except` clauses, and the `finally`
block.  `some r` means the iteration ends the call (a `return`, or an
exception that propagates); `none` means the loop moves on to the next
attempt.  The event list is in program order: the `except` clause (and its
sleep) runs before the `finally` block, so a backoff sleep precedes the
`driver.quit()` of the same attempt; `driver.quit()` only runs when
`driver` was assigned, i.e. when the session was opened. -/
def runAttempt (beh : Nat → Attempt) (maxRetries attempt : Nat) :
    Option PyResult × List Event :=
  match beh attempt with
  | Attempt.pageSource html =>
      if html ≠ "" ∧ 200 < html.length then
        (some (PyResult.ret html),
         [Event.attemptStart attempt, Event.sessionOpened attempt, Event.quit attempt])
      else
        (some (PyResult.raised (Exc.generic emptyHtmlMsg)),
         [Event.attemptStart attempt, Event.sessionOpened attempt, Event.quit attempt])
  | Attempt.failBeforeOpen e =>
      match handleExc maxRetries attempt e with
      | HandlerResult.reraise e2 =>
          (some (PyResult.raised e2), [Event.attemptStart attempt])
      | HandlerResult.continueWith evs =>
          (none, Event.attemptStart attempt :: evs)
  | Attempt.failAfterOpen e =>
      match handleExc maxRetries attempt e with
      | HandlerResult.reraise e2 =>
          (some (PyResult.raised e2),
           [Event.attemptStart attempt, Event.sessionOpened attempt, Event.quit attempt])
      | HandlerResult.continueWith evs =>
          (none, Event.attemptStart attempt :: Event.sessionOpened attempt ::
                   (evs ++ [Event.quit attempt]))

/-- The `for attempt in range(1, max_retries + 1)` loop of `scrape_website`.
If no iteration returns or raises, the loop finishes and the function falls
off the end, returning Python `None`. -/
def scrapeLoop (beh : Nat → Attempt) (maxRetries : Nat) : List Nat → PyResult × List Event
  | [] => (PyResult.retNone, [])
  | k :: rest =>
      match runAttempt beh maxRetries k with
      | (some r, evs) => (r, evs)
      | (none, evs) =>
          let next := scrapeLoop beh maxRetries rest
          (next.1, evs ++ next.2)

/-- Embedding of `scrape_website` (src/scrape.py, lines 58-131).  The
environment and the remote browser are passed in explicitly: `authEnv` is
the value of the `AUTH` variable and `beh k` is the outcome of the driver
calls of attempt `k`.  The result pairs the Python outcome with the trace
of observable events. -/
def scrape_website (authEnv : Option String) (beh : Nat → Attempt) (maxRetries : Nat) :
    PyResult × List Event :=
  match get_auth_credentials authEnv with
  | Except.error e => (PyResult.raised e, [])
  | Except.ok _ => scrapeLoop beh maxRetries (pyRange 1 (maxRetries + 1))

/-- Number of attempts a trace records. -/
def attemptCount (tr : List Event) : Nat :=
  (tr.filter fun e => match e with | Event.attemptStart _ => true | _ => false).length

/-- A transient failure: an exception matched by the retry logic of
`scrape_website` (a `WebDriverException`, timeouts included) whose text does
not carry the permanent-auth marker. -/
def isTransientExc (e : Exc) : Bool :=
  isWebDriverExc e && !(strContainsSub (excMsg e) "Wrong customer name")

/-- An attempt that fails with a transient exception. -/
def isTransientFail : Attempt → Bool
  | Attempt.failBeforeOpen e => isTransientExc e
  | Attempt.failAfterOpen e => isTransientExc e
  | Attempt.pageSource _ => false

/-- An attempt that fails with the permanent-auth signature: a
`WebDriverException` whose text contains `"Wrong customer name"`. -/
def isAuthRejectFail : Attempt → Bool
  | Attempt.failBeforeOpen e => isWebDriverExc e && strContainsSub (excMsg e) "Wrong customer name"
  | Attempt.failAfterOpen e => isWebDriverExc e && strContainsSub (excMsg e) "Wrong customer name"
  | Attempt.pageSource _ => false

/-- The exception an attempt outcome carries (dummy for a successful read). -/
def attemptExc : Attempt → Exc
  | Attempt.failBeforeOpen e => e
  | Attempt.failAfterOpen e => e
  | Attempt.pageSource _ => Exc.generic ""

lemma pyRange_cons (lo hi : Nat) (h : lo < hi) :
    pyRange lo hi = lo :: pyRange (lo + 1) hi := by
  unfold pyRange
  have h1 : hi - lo = (hi - (lo + 1)) + 1 := by omega
  rw [h1, List.range_succ_eq_map, List.map_cons, List.map_map]
  refine congrArg₂ _ (by omega) (List.map_congr_left ?_)
  intro j _
  simp only [Function.comp]
  omega

lemma pyRange_nil (lo hi : Nat) (h : hi ≤ lo) : pyRange lo hi = [] := by
  unfold pyRange
  have h1 : hi - lo = 0 := by omega
  rw [h1]
  rfl

lemma handleExc_transient (maxRetries k : Nat) (e : Exc)
    (he : isTransientExc e = true) (hk : k < maxRetries) :
    handleExc maxRetries k e = HandlerResult.continueWith [Event.sleep (2 ^ k)] := by
  unfold isTransientExc at he
  rw [Bool.and_eq_true, Bool.not_eq_true'] at he
  unfold handleExc
  rw [he.1, he.2]
  simp [hk]

lemma handleExc_exhausted (maxRetries k : Nat) (e : Exc)
    (he : isTransientExc e = true) (hk : maxRetries ≤ k) :
    handleExc maxRetries k e = HandlerResult.reraise (Exc.generic (failedAfterMsg maxRetries e)) := by
  unfold isTransientExc at he
  rw [Bool.and_eq_true, Bool.not_eq_true'] at he
  unfold handleExc
  rw [he.1, he.2]
  simp [Nat.not_lt.mpr hk]

lemma handleExc_authReject (maxRetries k : Nat) (e : Exc)
    (h1 : isWebDriverExc e = true)
    (h2 : strContainsSub (excMsg e) "Wrong customer name" = true) :
    handleExc maxRetries k e = HandlerResult.reraise (Exc.valueError authFixMsg) := by
  unfold handleExc
  rw [h1, h2]
  simp

/-- The per-attempt event block of a transient-failure attempt, as the
combination of `runAttempt` and `handleExc` produces it: the backoff sleep
`2 ^ k` is present exactly when a further attempt remains, and it precedes
the `finally` block's `driver.quit()`. -/
def transientSeg (beh : Nat → Attempt) (maxRetries k : Nat) : List Event :=
  match beh k with
  | Attempt.failBeforeOpen _ =>
      Event.attemptStart k :: (if k < maxRetries then [Event.sleep (2 ^ k)] else [])
  | Attempt.failAfterOpen _ =>
      Event.attemptStart k :: Event.sessionOpened k ::
        ((if k < maxRetries then [Event.sleep (2 ^ k)] else []) ++ [Event.quit k])
  | Attempt.pageSource _ => []

lemma runAttempt_transient (beh : Nat → Attempt) (maxRetries k : Nat)
    (ht : isTransientFail (beh k) = true) (hk : k < maxRetries) :
    runAttempt beh maxRetries k = (none, transientSeg beh maxRetries k) := by
  cases hb : beh k with
  | pageSource s => rw [hb] at ht; simp [isTransientFail] at ht
  | failBeforeOpen e =>
      rw [hb] at ht
      simp only [runAttempt, transientSeg, hb,
        handleExc_transient maxRetries k e ht hk, if_pos hk]
  | failAfterOpen e =>
      rw [hb] at ht
      simp only [runAttempt, transientSeg, hb,
        handleExc_transient maxRetries k e ht hk, if_pos hk]

lemma runAttempt_exhausted (beh : Nat → Attempt) (maxRetries k : Nat)
    (ht : isTransientFail (beh k) = true) (hk : maxRetries ≤ k) :
    runAttempt beh maxRetries k
      = (some (PyResult.raised (Exc.generic (failedAfterMsg maxRetries (attemptExc (beh k))))),
         transientSeg beh maxRetries k) := by
  cases hb : beh k with
  | pageSource s => rw [hb] at ht; simp [isTransientFail] at ht
  | failBeforeOpen e =>
      rw [hb] at ht
      simp only [runAttempt, transientSeg, attemptExc, hb,
        handleExc_exhausted maxRetries k e ht hk, if_neg (Nat.not_lt.mpr hk)]
  | failAfterOpen e =>
      rw [hb] at ht
      simp only [runAttempt, transientSeg, attemptExc, hb,
        handleExc_exhausted maxRetries k e ht hk, if_neg (Nat.not_lt.mpr hk)]
      rfl

lemma attemptCount_append (l1 l2 : List Event) :
    attemptCount (l1 ++ l2) = attemptCount l1 + attemptCount l2 := by
  unfold attemptCount
  rw [List.filter_append, List.length_append]

lemma attemptCount_transientSeg (beh : Nat → Attempt) (maxRetries k : Nat)
    (ht : isTransientFail (beh k) = true) :
    attemptCount (transientSeg beh maxRetries k) = 1 := by
  cases hb : beh k with
  | pageSource s => rw [hb] at ht; simp [isTransientFail] at ht
  | failBeforeOpen e =>
      by_cases hk : k < maxRetries
      · simp only [transientSeg, hb, if_pos hk]; rfl
      · simp only [transientSeg, hb, if_neg hk]; rfl
  | failAfterOpen e =>
      by_cases hk : k < maxRetries
      · simp only [transientSeg, hb, if_pos hk]; rfl
      · simp only [transientSeg, hb, if_neg hk]; rfl

lemma scrapeLoop_cons_stop (beh : Nat → Attempt) (maxRetries k : Nat) (rest : List Nat)
    (r : PyResult) (evs : List Event) (h : runAttempt beh maxRetries k = (some r, evs)) :
    scrapeLoop beh maxRetries (k :: rest) = (r, evs) := by
  rw [scrapeLoop, h]

lemma scrapeLoop_cons_next (beh : Nat → Attempt) (maxRetries k : Nat) (rest : List Nat)
    (evs : List Event) (h : runAttempt beh maxRetries k = (none, evs)) :
    scrapeLoop beh maxRetries (k :: rest)
      = ((scrapeLoop beh maxRetries rest).1, evs ++ (scrapeLoop beh maxRetries rest).2) := by
  rw [scrapeLoop, h]

lemma scrapeLoop_transient_skip (beh : Nat → Attempt) (maxRetries : Nat) (m : Nat) :
    ∀ a, 1 ≤ a → a + m ≤ maxRetries →
    (∀ k, a ≤ k → k < a + m → isTransientFail (beh k) = true) →
    (scrapeLoop beh maxRetries (pyRange a (maxRetries + 1))).1
      = (scrapeLoop beh maxRetries (pyRange (a + m) (maxRetries + 1))).1 ∧
    attemptCount (scrapeLoop beh maxRetries (pyRange a (maxRetries + 1))).2
      = m + attemptCount (scrapeLoop beh maxRetries (pyRange (a + m) (maxRetries + 1))).2 := by
  induction m with
  | zero =>
      intro a _ _ _
      rw [Nat.add_zero]
      exact ⟨rfl, (Nat.zero_add _).symm⟩
  | succ m ih =>
      intro a ha hm htrans
      have hak : a < maxRetries := by omega
      have hrun : runAttempt beh maxRetries a = (none, transientSeg beh maxRetries a) :=
        runAttempt_transient beh maxRetries a (htrans a le_rfl (by omega)) hak
      rw [pyRange_cons a (maxRetries + 1) (by omega),
          scrapeLoop_cons_next beh maxRetries a _ _ hrun]
      have hrec := ih (a + 1) (by omega) (by omega)
        (fun k h1 h2 => htrans k (by omega) (by omega))
      rw [show a + 1 + m = a + (m + 1) from by omega] at hrec
      refine ⟨hrec.1, ?_⟩
      rw [attemptCount_append,
          attemptCount_transientSeg beh maxRetries a (htrans a le_rfl (by omega)), hrec.2]
      omega

lemma scrapeLoop_success_head (beh : Nat → Attempt) (maxRetries a : Nat) (s : String)
    (ha : 1 ≤ a) (hamax : a ≤ maxRetries)
    (hbeh : beh a = Attempt.pageSource s) (hs1 : s ≠ "") (hs2 : 200 < s.length) :
    scrapeLoop beh maxRetries (pyRange a (maxRetries + 1))
      = (PyResult.ret s, [Event.attemptStart a, Event.sessionOpened a, Event.quit a]) := by
  rw [pyRange_cons a (maxRetries + 1) (by omega)]
  apply scrapeLoop_cons_stop
  have hcond : s ≠ "" ∧ 200 < s.length := ⟨hs1, hs2⟩
  simp only [runAttempt, hbeh, if_pos hcond]

lemma scrapeLoop_short_head (beh : Nat → Attempt) (maxRetries a : Nat) (s : String)
    (ha : 1 ≤ a) (hamax : a ≤ maxRetries)
    (hbeh : beh a = Attempt.pageSource s) (hshort : s = "" ∨ s.length ≤ 200) :
    scrapeLoop beh maxRetries (pyRange a (maxRetries + 1))
      = (PyResult.raised (Exc.generic emptyHtmlMsg),
         [Event.attemptStart a, Event.sessionOpened a, Event.quit a]) := by
  rw [pyRange_cons a (maxRetries + 1) (by omega)]
  apply scrapeLoop_cons_stop
  have hc : ¬(s ≠ "" ∧ 200 < s.length) := by
    rcases hshort with h | h
    · intro hc; exact hc.1 h
    · intro hc; omega
  simp only [runAttempt, hbeh, if_neg hc]

lemma scrapeLoop_authReject_head (beh : Nat → Attempt) (maxRetries a : Nat)
    (ha : 1 ≤ a) (hamax : a ≤ maxRetries) (hrej : isAuthRejectFail (beh a) = true) :
    (scrapeLoop beh maxRetries (pyRange a (maxRetries + 1))).1
      = PyResult.raised (Exc.valueError authFixMsg) ∧
    attemptCount (scrapeLoop beh maxRetries (pyRange a (maxRetries + 1))).2 = 1 := by
  rw [pyRange_cons a (maxRetries + 1) (by omega)]
  cases hb : beh a with
  | pageSource s => rw [hb] at hrej; simp [isAuthRejectFail] at hrej
  | failBeforeOpen e =>
      rw [hb] at hrej
      unfold isAuthRejectFail at hrej
      rw [Bool.and_eq_true] at hrej
      have hrun : runAttempt beh maxRetries a
          = (some (PyResult.raised (Exc.valueError authFixMsg)), [Event.attemptStart a]) := by
        simp only [runAttempt, hb, handleExc_authReject maxRetries a e hrej.1 hrej.2]
      rw [scrapeLoop_cons_stop beh maxRetries a _ _ _ hrun]
      exact ⟨rfl, rfl⟩
  | failAfterOpen e =>
      rw [hb] at hrej
      unfold isAuthRejectFail at hrej
      rw [Bool.and_eq_true] at hrej
      have hrun : runAttempt beh maxRetries a
          = (some (PyResult.raised (Exc.valueError authFixMsg)),
             [Event.attemptStart a, Event.sessionOpened a, Event.quit a]) := by
        simp only [runAttempt, hb, handleExc_authReject maxRetries a e hrej.1 hrej.2]
      rw [scrapeLoop_cons_stop beh maxRetries a _ _ _ hrun]
      exact ⟨rfl, rfl⟩

/-- C2: with valid credentials, a per-attempt behavior that fails
transiently on the first `N - 1` attempts and yields good markup on attempt
`N ≤ max_retries` makes `scrape_website` return that markup after exactly
`N` attempts; and a behavior that fails with the permanent-auth signature
(`"Wrong customer name"`) on the first attempt makes it raise the
configuration `ValueError` having performed exactly one attempt. -/
theorem scrape_website_retry_spec (authEnv : Option String) (a : String)
    (beh : Nat → Attempt) (maxRetries : Nat)
    (hauth : get_auth_credentials authEnv = Except.ok a) :
    (∀ N s, 1 ≤ N → N ≤ maxRetries →
      (∀ k, 1 ≤ k → k < N → isTransientFail (beh k) = true) →
      beh N = Attempt.pageSource s → s ≠ "" → 200 < s.length →
      (scrape_website authEnv beh maxRetries).1 = PyResult.ret s ∧
      attemptCount (scrape_website authEnv beh maxRetries).2 = N) ∧
    (1 ≤ maxRetries → isAuthRejectFail (beh 1) = true →
      (scrape_website authEnv beh maxRetries).1 = PyResult.raised (Exc.valueError authFixMsg) ∧
      attemptCount (scrape_website authEnv beh maxRetries).2 = 1) := by
  have hweb : scrape_website authEnv beh maxRetries
      = scrapeLoop beh maxRetries (pyRange 1 (maxRetries + 1)) := by
    unfold scrape_website
    rw [hauth]
  constructor
  · intro N s hN1 hNmax htrans hbeh hs1 hs2
    have hskip := scrapeLoop_transient_skip beh maxRetries (N - 1) 1 le_rfl (by omega)
      (fun k h1 h2 => htrans k h1 (by omega))
    rw [show 1 + (N - 1) = N from by omega] at hskip
    have hhead := scrapeLoop_success_head beh maxRetries N s hN1 hNmax hbeh hs1 hs2
    have h2 : attemptCount (scrapeLoop beh maxRetries (pyRange N (maxRetries + 1))).2 = 1 := by
      rw [hhead]
      rfl
    constructor
    · rw [hweb, hskip.1, hhead]
    · rw [hweb, hskip.2, h2]
      omega
  · intro hmax hrej
    have hhead := scrapeLoop_authReject_head beh maxRetries 1 le_rfl hmax hrej
    rw [hweb]
    exact hhead

set_option maxRecDepth 8192 in
/-- C2 witness: with `AUTH="u:p"`, a behavior failing with a transient
`WebDriverException` on attempts 1 and 2 and yielding 201 characters of
markup on attempt 3 of 3. -/
theorem scrape_website_retry_spec_witness :
    (scrape_website (some "u:p")
        (fun k => if k < 3 then Attempt.failAfterOpen (Exc.webDriver "connection reset")
                  else Attempt.pageSource (String.mk (List.replicate 201 'a'))) 3).1
      = PyResult.ret (String.mk (List.replicate 201 'a')) ∧
    attemptCount (scrape_website (some "u:p")
        (fun k => if k < 3 then Attempt.failAfterOpen (Exc.webDriver "connection reset")
                  else Attempt.pageSource (String.mk (List.replicate 201 'a'))) 3).2 = 3 :=
  (scrape_website_retry_spec (some "u:p") "u:p"
      (fun k => if k < 3 then Attempt.failAfterOpen (Exc.webDriver "connection reset")
                else Attempt.pageSource (String.mk (List.replicate 201 'a'))) 3
      rfl).1
    3 (String.mk (List.replicate 201 'a')) (by omega) (by omega)
    (by intro k h1 h2
        interval_cases k <;> decide)
    rfl (by decide) (by decide)

/-- C3 counterexample: with valid credentials, `max_retries = 3` and every
attempt yielding the 5-character markup `"short"`, the empty/short-markup
exception of line 104 is caught by neither `except` clause, so
`scrape_website` raises after a single attempt even though two further
attempts remain — the failure is not retried, contradicting the claim. -/
theorem scrape_short_html_cex :
    (scrape_website (some "u:p") (fun _ => Attempt.pageSource "short") 3).1
      = PyResult.raised (Exc.generic emptyHtmlMsg) ∧
    attemptCount (scrape_website (some "u:p") (fun _ => Attempt.pageSource "short") 3).2 = 1 ∧
    1 < 3 := by
  refine ⟨by decide, by decide, by omega⟩

/-- C3 amended: whenever an attempt of `scrape_website` obtains markup that
is empty or not longer than 200 characters, that attempt is treated as a
failure (the markup is never returned as a success); the failure raises
`Exception("Received empty/short HTML content.")`, which is caught by
neither `except` clause and therefore propagates immediately — no further
attempt is made even when attempts remain. -/
theorem scrape_short_html_amended (authEnv : Option String) (a : String)
    (beh : Nat → Attempt) (maxRetries N : Nat) (s : String)
    (hauth : get_auth_credentials authEnv = Except.ok a)
    (hN1 : 1 ≤ N) (hNmax : N ≤ maxRetries)
    (htrans : ∀ k, 1 ≤ k → k < N → isTransientFail (beh k) = true)
    (hbeh : beh N = Attempt.pageSource s)
    (hshort : s = "" ∨ s.length ≤ 200) :
    (scrape_website authEnv beh maxRetries).1 = PyResult.raised (Exc.generic emptyHtmlMsg) ∧
    attemptCount (scrape_website authEnv beh maxRetries).2 = N := by
  have hweb : scrape_website authEnv beh maxRetries
      = scrapeLoop beh maxRetries (pyRange 1 (maxRetries + 1)) := by
    unfold scrape_website
    rw [hauth]
  have hskip := scrapeLoop_transient_skip beh maxRetries (N - 1) 1 le_rfl (by omega)
    (fun k h1 h2 => htrans k h1 (by omega))
  rw [show 1 + (N - 1) = N from by omega] at hskip
  have hhead := scrapeLoop_short_head beh maxRetries N s hN1 hNmax hbeh hshort
  have h2 : attemptCount (scrapeLoop beh maxRetries (pyRange N (maxRetries + 1))).2 = 1 := by
    rw [hhead]
    rfl
  constructor
  · rw [hweb, hskip.1, hhead]
  · rw [hweb, hskip.2, h2]
    omega

/-- C3 amended witness: empty markup on the first of three attempts. -/
theorem scrape_short_html_amended_witness :
    (scrape_website (some "u:p") (fun _ => Attempt.pageSource "") 3).1
      = PyResult.raised (Exc.generic emptyHtmlMsg) ∧
    attemptCount (scrape_website (some "u:p") (fun _ => Attempt.pageSource "") 3).2 = 1 :=
  scrape_short_html_amended (some "u:p") "u:p" (fun _ => Attempt.pageSource "") 3 1 ""
    rfl (by omega) (by omega) (by intro k h1 h2; omega) rfl (Or.inl rfl)

/-- C8: if the `AUTH` environment variable is absent, empty, or contains no
colon, `scrape_website` raises the configuration `ValueError` with an empty
event trace — before any fetch attempt and without any retry. -/
theorem auth_config_error_spec (authEnv : Option String) (beh : Nat → Attempt)
    (maxRetries : Nat) :
    ((authEnv = none ∨ authEnv = some "") →
      scrape_website authEnv beh maxRetries
        = (PyResult.raised (Exc.valueError authMissingMsg), [])) ∧
    (∀ a, authEnv = some a → a ≠ "" → strContainsSub a ":" = false →
      scrape_website authEnv beh maxRetries
        = (PyResult.raised (Exc.valueError (authFormatMsg a)), [])) := by
  constructor
  · rintro (h | h) <;> subst h <;> rfl
  · intro a h ha hcolon
    subst h
    simp only [scrape_website, get_auth_credentials, if_neg ha, if_pos hcolon]

/-- C8 witness: an unset variable, and the colon-free value `"abc"`. -/
theorem auth_config_error_spec_witness :
    (scrape_website none (fun _ => Attempt.pageSource "x") 3
        = (PyResult.raised (Exc.valueError authMissingMsg), []) ∧
      scrape_website (some "abc") (fun _ => Attempt.pageSource "x") 3
        = (PyResult.raised (Exc.valueError (authFormatMsg "abc")), [])) :=
  ⟨(auth_config_error_spec none (fun _ => Attempt.pageSource "x") 3).1 (Or.inl rfl),
   (auth_config_error_spec (some "abc") (fun _ => Attempt.pageSource "x") 3).2 "abc" rfl
     (by decide) (by decide)⟩

/-- C9: with valid credentials and `max_retries = 0` the loop body never
runs: `scrape_website` performs no fetch attempt (the trace is empty) and
falls off the end of the function, returning Python `None` — a value a
caller can mistake for a success. -/
theorem scrape_zero_retries_none (authEnv : Option String) (a : String)
    (beh : Nat → Attempt) (hauth : get_auth_credentials authEnv = Except.ok a) :
    scrape_website authEnv beh 0 = (PyResult.retNone, []) := by
  unfold scrape_website
  rw [hauth]
  rfl

/-- C9 witness: `AUTH="u:p"`, `max_retries = 0`. -/
theorem scrape_zero_retries_none_witness :
    scrape_website (some "u:p") (fun _ => Attempt.pageSource "x") 0
      = (PyResult.retNone, []) :=
  scrape_zero_retries_none (some "u:p") "u:p" (fun _ => Attempt.pageSource "x") rfl

lemma scrapeLoop_all_transient (beh : Nat → Attempt) (maxRetries : Nat) (n : Nat) :
    ∀ a, a + n = maxRetries + 1 → 1 ≤ a → a ≤ maxRetries →
    (∀ k, a ≤ k → k ≤ maxRetries → isTransientFail (beh k) = true) →
    scrapeLoop beh maxRetries (pyRange a (maxRetries + 1))
      = (PyResult.raised (Exc.generic (failedAfterMsg maxRetries (attemptExc (beh maxRetries)))),
         ((List.range n).map (fun j => transientSeg beh maxRetries (a + j))).flatten) := by
  induction n with
  | zero => intro a h ha hmax _; omega
  | succ n ih =>
      intro a h ha hmax htrans
      rcases Nat.eq_or_lt_of_le hmax with heq | hlt
      · have hn : n = 0 := by omega
        subst hn
        rw [pyRange_cons a (maxRetries + 1) (by omega),
            pyRange_nil (a + 1) (maxRetries + 1) (by omega)]
        have hrun := runAttempt_exhausted beh maxRetries a (htrans a le_rfl hmax) (by omega)
        rw [scrapeLoop_cons_stop beh maxRetries a _ _ _ hrun]
        subst heq
        refine congrArg₂ Prod.mk rfl ?_
        show transientSeg beh a a = transientSeg beh a (a + 0) ++ []
        rw [Nat.add_zero, List.append_nil]
      · have hrun := runAttempt_transient beh maxRetries a (htrans a le_rfl hmax) hlt
        rw [pyRange_cons a (maxRetries + 1) (by omega),
            scrapeLoop_cons_next beh maxRetries a _ _ hrun,
            ih (a + 1) (by omega) (by omega) (by omega)
              (fun k h1 h2 => htrans k (by omega) h2)]
        refine congrArg₂ Prod.mk rfl ?_
        rw [List.range_succ_eq_map, List.map_cons, List.map_map, List.flatten_cons,
            Nat.add_zero]
        congr 1
        show ((List.range n).map (fun j => transientSeg beh maxRetries (a + 1 + j))).flatten
          = ((List.range n).map ((fun j => transientSeg beh maxRetries (a + j)) ∘ Nat.succ)).flatten
        apply congrArg
        apply List.map_congr_left
        intro j _
        simp only [Function.comp]
        congr 1
        omega

/-- C4: with valid credentials and every attempt failing with a transient
navigation/session error (a `WebDriverException`, timeouts included — in
selenium `TimeoutException` subclasses `WebDriverException`, so both reach
the backoff branch), `scrape_website` raises the retries-exhausted
exception after attempt `max_retries`, and its trace is exactly the
concatenation of the per-attempt blocks `transientSeg`, which place the
backoff sleep of `2 ^ k` seconds inside attempt `k`'s block — i.e. before
the next attempt starts — exactly when `k < max_retries`. -/
theorem scrape_website_backoff_spec (authEnv : Option String) (a : String)
    (beh : Nat → Attempt) (maxRetries : Nat)
    (hauth : get_auth_credentials authEnv = Except.ok a) (hmax : 1 ≤ maxRetries)
    (htrans : ∀ k, 1 ≤ k → k ≤ maxRetries → isTransientFail (beh k) = true) :
    (scrape_website authEnv beh maxRetries).1
      = PyResult.raised (Exc.generic (failedAfterMsg maxRetries (attemptExc (beh maxRetries)))) ∧
    (scrape_website authEnv beh maxRetries).2
      = ((List.range maxRetries).map (fun j => transientSeg beh maxRetries (1 + j))).flatten := by
  have hweb : scrape_website authEnv beh maxRetries
      = scrapeLoop beh maxRetries (pyRange 1 (maxRetries + 1)) := by
    unfold scrape_website
    rw [hauth]
  rw [hweb, scrapeLoop_all_transient beh maxRetries maxRetries 1 (by omega) le_rfl hmax htrans]
  exact ⟨rfl, rfl⟩

/-- C4 witness: two attempts, both failing with a transient
`WebDriverException`; the trace shows the `2 ^ 1` backoff sleep inside
attempt 1 and the exhaustion exception after attempt 2. -/
theorem scrape_website_backoff_spec_witness :
    (scrape_website (some "u:p") (fun _ => Attempt.failAfterOpen (Exc.webDriver "boom")) 2).1
      = PyResult.raised (Exc.generic (failedAfterMsg 2 (Exc.webDriver "boom"))) ∧
    (scrape_website (some "u:p") (fun _ => Attempt.failAfterOpen (Exc.webDriver "boom")) 2).2
      = [Event.attemptStart 1, Event.sessionOpened 1, Event.sleep 2, Event.quit 1,
         Event.attemptStart 2, Event.sessionOpened 2, Event.quit 2] :=
  scrape_website_backoff_spec (some "u:p") "u:p"
    (fun _ => Attempt.failAfterOpen (Exc.webDriver "boom")) 2 rfl (by omega)
    (by intro k h1 h2; rfl)

lemma handleExc_continueWith_sleep (maxRetries k : Nat) (e : Exc) (evs : List Event)
    (h : handleExc maxRetries k e = HandlerResult.continueWith evs) :
    ∀ x ∈ evs, ∃ n, x = Event.sleep n := by
  unfold handleExc at h
  split at h
  · split at h
    · exact HandlerResult.noConfusion h
    · split at h
      · cases h
        intro x hx
        simp at hx
        exact ⟨2 ^ k, hx⟩
      · exact HandlerResult.noConfusion h
  · split at h
    · split at h
      · exact HandlerResult.noConfusion h
      · cases h
        intro x hx
        simp at hx
        exact ⟨2, hx⟩
    · exact HandlerResult.noConfusion h

lemma runAttempt_opened_quit (beh : Nat → Attempt) (maxRetries a k : Nat)
    (h : Event.sessionOpened k ∈ (runAttempt beh maxRetries a).2) :
    List.Sublist [Event.sessionOpened k, Event.quit k] (runAttempt beh maxRetries a).2 := by
  cases hb : beh a with
  | pageSource s =>
      by_cases hc : s ≠ "" ∧ 200 < s.length
      · simp only [runAttempt, hb, if_pos hc] at h ⊢
        simp at h
        subst h
        exact List.Sublist.cons _ (List.Sublist.refl _)
      · simp only [runAttempt, hb, if_neg hc] at h ⊢
        simp at h
        subst h
        exact List.Sublist.cons _ (List.Sublist.refl _)
  | failBeforeOpen e =>
      cases hh : handleExc maxRetries a e with
      | reraise e2 =>
          simp only [runAttempt, hb, hh] at h
          simp at h
      | continueWith evs =>
          simp only [runAttempt, hb, hh] at h
          rcases List.mem_cons.mp h with h1 | h1
          · exact absurd h1 (by simp)
          · rcases handleExc_continueWith_sleep maxRetries a e evs hh _ h1 with ⟨n, hn⟩
            exact absurd hn (by simp)
  | failAfterOpen e =>
      cases hh : handleExc maxRetries a e with
      | reraise e2 =>
          simp only [runAttempt, hb, hh] at h ⊢
          simp at h
          subst h
          exact List.Sublist.cons _ (List.Sublist.refl _)
      | continueWith evs =>
          simp only [runAttempt, hb, hh] at h ⊢
          have hk : k = a := by
            rcases List.mem_cons.mp h with h1 | h1
            · exact absurd h1 (by simp)
            rcases List.mem_cons.mp h1 with h2 | h2
            · simpa using h2
            rcases List.mem_append.mp h2 with h3 | h3
            · rcases handleExc_continueWith_sleep maxRetries a e evs hh _ h3 with ⟨n, hn⟩
              exact absurd hn (by simp)
            · simp at h3
          subst hk
          exact List.Sublist.cons _ (List.Sublist.cons₂ _ (List.sublist_append_right evs _))

lemma scrapeLoop_opened_quit (beh : Nat → Attempt) (maxRetries k : Nat) :
    ∀ ks, Event.sessionOpened k ∈ (scrapeLoop beh maxRetries ks).2 →
      List.Sublist [Event.sessionOpened k, Event.quit k] (scrapeLoop beh maxRetries ks).2 := by
  intro ks
  induction ks with
  | nil => intro h; simp [scrapeLoop] at h
  | cons a rest ih =>
      intro h
      rcases hr : runAttempt beh maxRetries a with ⟨o, evs⟩
      cases o with
      | some r =>
          rw [scrapeLoop_cons_stop beh maxRetries a rest r evs hr] at h ⊢
          have hsub := runAttempt_opened_quit beh maxRetries a k (by rw [hr]; exact h)
          rw [hr] at hsub
          exact hsub
      | none =>
          rw [scrapeLoop_cons_next beh maxRetries a rest evs hr] at h ⊢
          rcases List.mem_append.mp h with h1 | h1
          · have hsub := runAttempt_opened_quit beh maxRetries a k (by rw [hr]; exact h1)
            rw [hr] at hsub
            exact hsub.trans (List.sublist_append_left evs _)
          · exact (ih h1).trans (List.sublist_append_right evs _)

/-- C5: on every exit path of each `scrape_website` attempt in which the
remote session was opened — a `return`, a propagating exception, or moving
on to the next attempt — `driver.quit()` is invoked before that exit: in
any trace where attempt `k` records `sessionOpened`, a `quit` for the same
attempt occurs later in the trace (and inside the same attempt's event
block, which the `quit` event closes). -/
theorem scrape_quit_on_exit (authEnv : Option String) (beh : Nat → Attempt)
    (maxRetries k : Nat)
    (h : Event.sessionOpened k ∈ (scrape_website authEnv beh maxRetries).2) :
    List.Sublist [Event.sessionOpened k, Event.quit k]
      (scrape_website authEnv beh maxRetries).2 := by
  unfold scrape_website at h ⊢
  cases hga : get_auth_credentials authEnv with
  | error e =>
      rw [hga] at h
      simp at h
  | ok a =>
      rw [hga] at h
      exact scrapeLoop_opened_quit beh maxRetries k _ h

/-- C5 witness: a session opened on attempt 1 (markup too short, exception
exit path) is followed by its `quit` event. -/
theorem scrape_quit_on_exit_witness :
    List.Sublist [Event.sessionOpened 1, Event.quit 1]
      (scrape_website (some "u:p") (fun _ => Attempt.pageSource "short") 3).2 :=
  scrape_quit_on_exit (some "u:p") (fun _ => Attempt.pageSource "short") 3 1 (by decide)

/-- Embedding of `fallback_scrape` (src/scrape.py, lines 178-192).
`httpRes` is the outcome of the external `requests.get` call including
`raise_for_status`: `ok text` is the response body of a successful request,
`error` models any exception, which the function replaces by its own. -/
def fallback_scrape (httpRes : Except String String) : PyResult :=
  match httpRes with
  | Except.ok text => PyResult.ret text
  | Except.error _ => PyResult.raised (Exc.generic "Fallback scraping failed as well.")

/-- Embedding of `scrape_with_fallback` (src/scrape.py, lines 199-206):
`scrape_website` is called with its default `max_retries = 3`; `except
Exception` catches every raised exception (`ValueError` included) and runs
the fallback; a `None` return would be passed through unchanged. -/
def scrape_with_fallback (authEnv : Option String) (beh : Nat → Attempt)
    (httpRes : Except String String) : PyResult :=
  match (scrape_website authEnv beh 3).1 with
  | PyResult.ret s => PyResult.ret s
  | PyResult.raised _ => fallback_scrape httpRes
  | PyResult.retNone => PyResult.retNone

/-- C10: `scrape_with_fallback` attempts the plain-HTTP fallback after
every failure of the primary scraper — the missing-credential and
malformed-credential configuration errors and the permanent auth rejection
included — so with a successful HTTP response a fatal credential error is
masked and markup is still returned. -/
theorem scrape_with_fallback_swallows_auth (beh : Nat → Attempt)
    (httpRes : Except String String) :
    (∀ authEnv, (authEnv = none ∨ authEnv = some "") →
      scrape_with_fallback authEnv beh httpRes = fallback_scrape httpRes) ∧
    (∀ a, a ≠ "" → strContainsSub a ":" = false →
      scrape_with_fallback (some a) beh httpRes = fallback_scrape httpRes) ∧
    (∀ authEnv a, get_auth_credentials authEnv = Except.ok a →
      isAuthRejectFail (beh 1) = true →
      scrape_with_fallback authEnv beh httpRes = fallback_scrape httpRes) ∧
    (∀ text, fallback_scrape (Except.ok text) = PyResult.ret text) := by
  refine ⟨?_, ?_, ?_, fun text => rfl⟩
  · rintro authEnv (h | h) <;> subst h <;> rfl
  · intro a ha hcolon
    simp only [scrape_with_fallback, scrape_website, get_auth_credentials,
      if_neg ha, if_pos hcolon]
  · intro authEnv a hauth hrej
    have h1 : (scrape_website authEnv beh 3).1 = PyResult.raised (Exc.valueError authFixMsg) := by
      unfold scrape_website
      rw [hauth]
      exact (scrapeLoop_authReject_head beh 3 1 le_rfl (by omega) hrej).1
    unfold scrape_with_fallback
    rw [h1]

/-- C10 witness: the remote service rejects the credentials permanently
(`"Wrong customer name"`), yet the fallback's successful HTTP response is
returned as markup. -/
theorem scrape_with_fallback_swallows_auth_witness :
    scrape_with_fallback (some "u:p")
        (fun _ => Attempt.failBeforeOpen (Exc.webDriver "Wrong customer name: u"))
        (Except.ok "<html>fallback</html>")
      = PyResult.ret "<html>fallback</html>" :=
  (scrape_with_fallback_swallows_auth
      (fun _ => Attempt.failBeforeOpen (Exc.webDriver "Wrong customer name: u"))
      (Except.ok "<html>fallback</html>")).2.2.1
    (some "u:p") "u:p" rfl (by decide)

/-- Model of a parsed BeautifulSoup document as far as `extract_body_content`
inspects it: `body` is the rendered `<body>` element (`str(soup.body)`) when
the document has one and it is truthy, else `none`. -/
structure Soup where
  body : Option String

/-- Embedding of `extract_body_content` (src/scrape.py, lines 138-145).
`parse` stands for the external `BeautifulSoup(html_content, "html.parser")`
call; `Except.error` models that call raising, which the `except` clause
turns into an empty string. -/
def extract_body_content (parse : String → Except String Soup) (html_content : String) : String :=
  match parse html_content with
  | Except.error _ => ""
  | Except.ok soup =>
      match soup.body with
      | some b => b
      | none => ""

/-- Splitting a character list at every newline: the `'\n'`-separated
fields, one more field than separators. -/
def splitNL : List Char → List (List Char)
  | [] => [[]]
  | c :: cs =>
      if c = '\n' then [] :: splitNL cs
      else
        match splitNL cs with
        | [] => [[c]]
        | l :: ls => (c :: l) :: ls

/-- Whether the last character is a newline. -/
def endsNL (l : List Char) : Bool := l.getLast? == some '\n'

/-- Model of Python `str.splitlines` restricted to `"\n"` line terminators:
the empty string has no lines, and a trailing newline does not open a new
last line. -/
def pySplitlinesL (l : List Char) : List (List Char) :=
  if l = [] then []
  else if endsNL l then (splitNL l).dropLast
  else splitNL l

/-- Python `str.strip`, modelled by trimming whitespace at both ends. -/
def pyStrip (s : String) : String := s.trim

/-- Embedding of `clean_body_content` (src/scrape.py, lines 148-163).
`getText` stands for the whole external BeautifulSoup pipeline of the `try`
block up to `soup.get_text(separator="\n")` — parsing, `decompose` of the
script and style elements, and text extraction; `Except.error` models any
of those calls raising, which the `except` clause turns into an empty
string.  The line cleanup after it is embedded concretely: the comprehension
`[line.strip() for line in text.splitlines() if line.strip()]` followed by
`"\n".join(lines)`. -/
def clean_body_content (getText : String → Except String String) (body_content : String) : String :=
  match getText body_content with
  | Except.error _ => ""
  | Except.ok text =>
      String.intercalate "\n"
        ((pySplitlinesL text.toList).filterMap (fun line =>
          let t := pyStrip (String.mk line)
          if t = "" then none else some t))

/-- C6: the cleaner operations are total Lean functions — every outcome of
the external parser, a raised exception included, is mapped to a returned
string, so they never raise; on a parse failure both return the empty
string, and `extract_body_content` returns the empty string when the markup
has no body element. -/
theorem cleaner_never_raises (parse : String → Except String Soup)
    (getText : String → Except String String) (html body : String) :
    (∀ msg, parse html = Except.error msg → extract_body_content parse html = "") ∧
    (∀ soup, parse html = Except.ok soup → soup.body = none →
      extract_body_content parse html = "") ∧
    (∀ msg, getText body = Except.error msg → clean_body_content getText body = "") := by
  refine ⟨?_, ?_, ?_⟩
  · intro msg h
    simp only [extract_body_content, h]
  · intro soup h hb
    simp only [extract_body_content, h, hb]
  · intro msg h
    simp only [clean_body_content, h]

/-- C6 witness: a parser yielding a document without a body element, and a
text extraction that raises. -/
theorem cleaner_never_raises_witness :
    extract_body_content (fun _ => Except.ok (Soup.mk none)) "<div>x</div>" = "" ∧
    clean_body_content (fun _ => Except.error "boom") "<div>x</div>" = "" :=
  ⟨(cleaner_never_raises (fun _ => Except.ok (Soup.mk none))
      (fun _ => Except.error "boom") "<div>x</div>" "<div>x</div>").2.1 (Soup.mk none) rfl rfl,
   (cleaner_never_raises (fun _ => Except.ok (Soup.mk none))
      (fun _ => Except.error "boom") "<div>x</div>" "<div>x</div>").2.2 "boom" rfl⟩

/-- Python `"\n".join` on character-list strings. -/
def joinNL : List (List Char) → List Char
  | [] => []
  | [r] => r
  | r :: rs => r ++ '\n' :: joinNL rs

/-- The `for` loop of `parse_with_together`: one model call per chunk, in
order, collecting the responses and the issued requests. -/
def parseLoop (model : List Char → List Char → List Char) (parse_description : List Char) :
    List (List Char) → List (List Char) × List (List Char × List Char)
  | [] => ([], [])
  | c :: cs =>
      let r := model c parse_description
      let rest := parseLoop model parse_description cs
      (r :: rest.1, (c, parse_description) :: rest.2)

/-- Embedding of `parse_with_together` (src/parse.py, lines 27-39), with the
hosted model passed in as `model chunk description` and Python strings as
character lists.  Returns the `"\n"`-joined result together with the list
of issued requests, in order. -/
def parse_with_together (model : List Char → List Char → List Char)
    (dom_chunks : List (List Char)) (parse_description : List Char) :
    List Char × List (List Char × List Char) :=
  let res := parseLoop model parse_description dom_chunks
  (joinNL res.1, res.2)

lemma parseLoop_spec (model : List Char → List Char → List Char) (desc : List Char) :
    ∀ chunks, parseLoop model desc chunks
      = (chunks.map (fun c => model c desc), chunks.map (fun c => (c, desc))) := by
  intro chunks
  induction chunks with
  | nil => rfl
  | cons c cs ih => simp [parseLoop, ih]

lemma splitNL_no_newline (l : List Char) (h : '\n' ∉ l) : splitNL l = [l] := by
  induction l with
  | nil => rfl
  | cons c cs ih =>
      rw [List.mem_cons, not_or] at h
      rw [splitNL, if_neg (fun hcc => h.1 hcc.symm), ih h.2]

lemma splitNL_append_newline (t : List Char) : ∀ l, '\n' ∉ l →
    splitNL (l ++ '\n' :: t) = l :: splitNL t := by
  intro l
  induction l with
  | nil =>
      intro _
      rw [List.nil_append, splitNL, if_pos rfl]
  | cons c cs ih =>
      intro h
      rw [List.mem_cons, not_or] at h
      rw [List.cons_append, splitNL, if_neg (fun hcc => h.1 hcc.symm), ih h.2]

lemma joinNL_ne_nil (r : List Char) (rs : List (List Char)) (hr : r ≠ []) :
    joinNL (r :: rs) ≠ [] := by
  cases rs with
  | nil => simpa [joinNL] using hr
  | cons s ss => simp [joinNL]

lemma endsNL_false_of_no_newline (l : List Char) (h : '\n' ∉ l) : endsNL l = false := by
  unfold endsNL
  cases hl : l.getLast? with
  | none => rfl
  | some c =>
      have hc : c ∈ l := List.mem_of_getLast?_eq_some hl
      have hcn : ¬ c = '\n' := fun hcc => h (hcc ▸ hc)
      rw [beq_eq_false_iff_ne]
      intro hsome
      rw [Option.some.injEq] at hsome
      exact hcn hsome

lemma endsNL_joinNL_false (rs : List (List Char))
    (h : ∀ x ∈ rs, x ≠ [] ∧ '\n' ∉ x) : endsNL (joinNL rs) = false := by
  induction rs with
  | nil => rfl
  | cons r rs2 ih =>
      cases rs2 with
      | nil => exact endsNL_false_of_no_newline r (h r (by simp)).2
      | cons s ss =>
          have hne : joinNL (s :: ss) ≠ [] := joinNL_ne_nil s ss (h s (by simp)).1
          unfold endsNL
          rw [show joinNL (r :: s :: ss) = r ++ '\n' :: joinNL (s :: ss) from rfl,
              List.getLast?_append_of_ne_nil r (show ('\n' :: joinNL (s :: ss)) ≠ [] by simp),
              show ('\n' :: joinNL (s :: ss)) = ['\n'] ++ joinNL (s :: ss) from rfl,
              List.getLast?_append_of_ne_nil ['\n'] hne]
          have hrec := ih (fun x hx => h x (List.mem_cons_of_mem r hx))
          unfold endsNL at hrec
          exact hrec

lemma splitNL_joinNL (rs : List (List Char)) (h : ∀ x ∈ rs, '\n' ∉ x) (hne : rs ≠ []) :
    splitNL (joinNL rs) = rs := by
  induction rs with
  | nil => exact absurd rfl hne
  | cons r rs2 ih =>
      cases rs2 with
      | nil => exact splitNL_no_newline r (h r (by simp))
      | cons s ss =>
          rw [show joinNL (r :: s :: ss) = r ++ '\n' :: joinNL (s :: ss) from rfl,
              splitNL_append_newline (joinNL (s :: ss)) r (h r (by simp)),
              ih (fun x hx => h x (List.mem_cons_of_mem r hx)) (by simp)]

lemma pySplitlinesL_joinNL (rs : List (List Char))
    (h : ∀ x ∈ rs, x ≠ [] ∧ '\n' ∉ x) : pySplitlinesL (joinNL rs) = rs := by
  cases rs with
  | nil => rfl
  | cons r rs2 =>
      have hne : joinNL (r :: rs2) ≠ [] := joinNL_ne_nil r rs2 (h r (by simp)).1
      unfold pySplitlinesL
      rw [if_neg hne, endsNL_joinNL_false (r :: rs2) h, if_neg (by simp)]
      exact splitNL_joinNL (r :: rs2) (fun x hx => (h x hx).2) (by simp)

/-- C7: `parse_with_together` issues exactly one model request per chunk, in
chunk order; it returns the per-chunk responses joined with newline
separators in the same order; and when each response is a single line
(nonempty, containing no newline), the line count of the result equals the
chunk count. -/
theorem parse_with_together_spec (model : List Char → List Char → List Char)
    (dom_chunks : List (List Char)) (desc : List Char) :
    (parse_with_together model dom_chunks desc).2 = dom_chunks.map (fun c => (c, desc)) ∧
    (parse_with_together model dom_chunks desc).1
      = joinNL (dom_chunks.map (fun c => model c desc)) ∧
    ((∀ c ∈ dom_chunks, model c desc ≠ [] ∧ '\n' ∉ model c desc) →
      (pySplitlinesL (parse_with_together model dom_chunks desc).1).length
        = dom_chunks.length) := by
  have hloop := parseLoop_spec model desc dom_chunks
  refine ⟨?_, ?_, ?_⟩
  · simp only [parse_with_together]
    rw [hloop]
  · simp only [parse_with_together]
    rw [hloop]
  · intro hl
    simp only [parse_with_together]
    rw [hloop]
    have hall : ∀ x ∈ dom_chunks.map (fun c => model c desc), x ≠ [] ∧ '\n' ∉ x := by
      intro x hx
      rcases List.mem_map.mp hx with ⟨c, hc, hcx⟩
      exact hcx ▸ hl c hc
    calc (pySplitlinesL (joinNL (dom_chunks.map (fun c => model c desc)),
            dom_chunks.map (fun c => (c, desc))).1).length
        = (dom_chunks.map (fun c => model c desc)).length := by
          rw [pySplitlinesL_joinNL _ hall]
      _ = dom_chunks.length := List.length_map _ _

/-- C7 witness: two chunks, a model echoing each chunk behind an `'r'`; two
requests in order, the responses joined by one newline, two result lines. -/
theorem parse_with_together_spec_witness :
    (parse_with_together (fun c _ => 'r' :: c) [['a'], ['b']] ['d']).2
        = [(['a'], ['d']), (['b'], ['d'])] ∧
    (parse_with_together (fun c _ => 'r' :: c) [['a'], ['b']] ['d']).1
        = joinNL ([['a'], ['b']].map (fun c => (fun c _ => 'r' :: c) c ['d'])) ∧
    (pySplitlinesL (parse_with_together (fun c _ => 'r' :: c) [['a'], ['b']] ['d']).1).length
        = 2 :=
  ⟨(parse_with_together_spec (fun c _ => 'r' :: c) [['a'], ['b']] ['d']).1,
   (parse_with_together_spec (fun c _ => 'r' :: c) [['a'], ['b']] ['d']).2.1,
   (parse_with_together_spec (fun c _ => 'r' :: c) [['a'], ['b']] ['d']).2.2 (by decide)⟩

end Scrapipy
